import Mathlib

/-!
Shallow embedding of the `msg_q` in-memory message-queue engine
(`src/lib/domain/messages/models/message.rs` and `src/lib/outbound/memory.rs`).

Modelling conventions:
* `Instant` is a natural number of abstract clock ticks; every function whose
  Rust counterpart calls `Instant::now()` takes the current time `now : Nat`
  as an explicit argument.
* `Uuid` is a natural number (the 128-bit value parsed from the textual form);
  `Uuid::new_v4()` is modelled by passing the freshly drawn id as an argument.
* Rust panics (`unwrap()` on `None`, `unreachable!()`, `todo!()`) are modelled
  by an outer `Option`: `none` is a panic.
* `HashMap<QueueName, Queue>` is an association list with unique keys;
  `VecDeque<Message>` is a `List Message` (front of deque = head of list).
-/

namespace MsgQ

/-- Instant of the (mock) monotonic clock, as abstract ticks. -/
abbrev Instant := Nat

/-- Uuid value, identified with its 128-bit numeric value. -/
abbrev Uuid := Nat

/-- Rust `enum Reservation` from message.rs: `Unreserved | Until(Instant)`. -/
inductive Reservation where
  | Unreserved : Reservation
  | Until : Instant → Reservation
deriving DecidableEq

/-- Rust `enum Expiry` from message.rs: `Permanent | Expire(Instant)`. -/
inductive Expiry where
  | Permanent : Expiry
  | Expire : Instant → Expiry
deriving DecidableEq

/-- Rust `impl From<Option<Instant>> for Reservation`. -/
def Reservation.fromOpt : Option Instant → Reservation
  | none => .Unreserved
  | some i => .Until i

/-- Rust `impl From<Option<Instant>> for Expiry`. -/
def Expiry.fromOpt : Option Instant → Expiry
  | none => .Permanent
  | some i => .Expire i

/-- Rust `struct Message` from message.rs. -/
structure Message where
  mid : Uuid
  cid : Option Uuid
  cursor : Nat
  content : String
  reservation : Reservation
  expiry : Expiry
deriving DecidableEq

/-- Rust `Message::new`: cursor 0, unreserved, expiry from the optional instant. -/
def Message.new (mid : Uuid) (cid : Option Uuid) (content : String)
    (expiry : Option Instant) : Message :=
  { mid := mid, cid := cid, content := content, cursor := 0,
    reservation := Reservation.Unreserved, expiry := Expiry.fromOpt expiry }

/-- Rust `Message::set_cursor`. -/
def Message.set_cursor (m : Message) (cursor : Nat) : Message :=
  { m with cursor := cursor }

/-- Rust `Message::is_reserved`: true iff reservation = Until(t) and now < t. -/
def Message.is_reserved (m : Message) (now : Instant) : Bool :=
  match m.reservation with
  | Reservation.Unreserved => false
  | Reservation.Until inst => decide (now < inst)

/-- Rust `Message::set_reservation`: sets Until(i) when an instant is supplied,
otherwise leaves the reservation unchanged. -/
def Message.set_reservation (m : Message) (inst : Option Instant) : Message :=
  match inst with
  | some i => { m with reservation := Reservation.Until i }
  | none => m

/-- Rust `Message::remove_reservation`. -/
def Message.remove_reservation (m : Message) : Message :=
  { m with reservation := Reservation.Unreserved }

/-- Rust `Message::is_expired`: true iff expiry = Expire(t) and now >= t. -/
def Message.is_expired (m : Message) (now : Instant) : Bool :=
  match m.expiry with
  | Expiry.Permanent => false
  | Expiry.Expire inst => decide (inst ≤ now)

/-- Rust `struct QueueName(String)`: a trimmed, non-empty string. -/
structure QueueName where
  val : String
deriving DecidableEq

/-- Rust `struct QueueNameEmptyError`. -/
structure QueueNameEmptyError where
deriving DecidableEq

/-- Whitespace trimming at both ends of a character list. -/
def trimChars (cs : List Char) : List Char :=
  ((cs.dropWhile Char.isWhitespace).reverse.dropWhile Char.isWhitespace).reverse

/-- Rust `str::trim`, modelled over the character list. -/
def strTrim (s : String) : String :=
  { data := trimChars s.data }

/-- Rust `impl TryFrom<&String> for QueueName`: trim, reject the empty result. -/
def QueueName.tryFrom (value : String) : Except QueueNameEmptyError QueueName :=
  let trimmed := strTrim value
  if trimmed.data.isEmpty then Except.error {} else Except.ok { val := trimmed }

/-- Rust `enum GetMessageError` from message.rs (the `Unknown` payload is dropped). -/
inductive GetMessageError where
  | BadUuid : String → GetMessageError
  | NoMessage : String → GetMessageError
  | MissingParameter : String → GetMessageError
  | InvalidParameter : String → GetMessageError
  | Unknown : GetMessageError
deriving DecidableEq

/-- Rust `enum CreateMessageError` (the `Unknown` payload is dropped). -/
inductive CreateMessageError where
  | BadQueue : String → CreateMessageError
  | Unknown : CreateMessageError
deriving DecidableEq

/-- Rust `enum QueueSummaryError` (the `Unknown` payload is dropped). -/
inductive QueueSummaryError where
  | Unknown : QueueSummaryError
  | NoQueue : String → QueueSummaryError
deriving DecidableEq

/-- Rust `enum GetMessageAction`. -/
inductive GetMessageAction where
  | Browse : GetMessageAction
  | Get : GetMessageAction
  | Reserve : GetMessageAction
  | Confirm : GetMessageAction
  | Return : GetMessageAction
  | Query : GetMessageAction
deriving DecidableEq

/-- Rust `impl TryFrom<&str> for GetMessageAction`. -/
def GetMessageAction.tryFrom (value : String) : Except GetMessageError GetMessageAction :=
  if value = "browse" then Except.ok GetMessageAction.Browse
  else if value = "get" then Except.ok GetMessageAction.Get
  else if value = "reserve" then Except.ok GetMessageAction.Reserve
  else if value = "confirm" then Except.ok GetMessageAction.Confirm
  else if value = "return" then Except.ok GetMessageAction.Return
  else if value = "query" then Except.ok GetMessageAction.Query
  else Except.error (GetMessageError.InvalidParameter (value ++ " is not valid for action"))

/-- Rust `struct GetMessageOptions` (the validated request descriptor). -/
structure GetMessageOptions where
  queue_name : QueueName
  action : GetMessageAction
  mid : Option Uuid
  cid : Option Uuid
  reservation : Option Instant
  expiry : Option Instant
  cursor : Option Nat
deriving DecidableEq

/-- Rust `GetMessageOptions::needs_mid`. -/
def GetMessageOptions.needs_mid (gmo : GetMessageOptions) : Except GetMessageError Unit :=
  match gmo.mid with
  | none => Except.error (GetMessageError.MissingParameter "id")
  | some _ => Except.ok ()

/-- Rust `GetMessageOptions::no_reservation`. -/
def GetMessageOptions.no_reservation (gmo : GetMessageOptions) : Except GetMessageError Unit :=
  match gmo.reservation with
  | some _ => Except.error (GetMessageError.InvalidParameter "reservation_seconds")
  | none => Except.ok ()

/-- Rust `GetMessageOptions::needs_reservation`. -/
def GetMessageOptions.needs_reservation (gmo : GetMessageOptions) : Except GetMessageError Unit :=
  match gmo.reservation with
  | none => Except.error (GetMessageError.MissingParameter "reservation_seconds")
  | some _ => Except.ok ()

/-- Rust `GetMessageAction::validate`. -/
def GetMessageAction.validate (a : GetMessageAction) (gmo : GetMessageOptions) :
    Except GetMessageError Unit :=
  match a with
  | GetMessageAction.Reserve => gmo.needs_reservation
  | GetMessageAction.Confirm => gmo.needs_mid
  | GetMessageAction.Return => gmo.needs_mid
  | GetMessageAction.Query => gmo.no_reservation
  | GetMessageAction.Browse => gmo.no_reservation
  | GetMessageAction.Get => Except.ok ()

/-- Rust `GetMessageOptions::matches`. `none` models a panic:
the `unwrap()` of an absent `mid` in the Confirm/Return arms (reached only when
`is_reserved()` already returned true, because `&&` short-circuits), and the
`unreachable!()` of the Query arm. -/
def GetMessageOptions.matches (gmo : GetMessageOptions) (now : Instant) (msg : Message) :
    Option Bool :=
  match gmo.action with
  | GetMessageAction.Browse =>
      some (!msg.is_reserved now && !msg.is_expired now
        && (match gmo.mid with | none => true | some v => msg.mid == v)
        && (match gmo.cid with | none => true | some _ => msg.cid == gmo.cid)
        && (match gmo.cursor with | none => true | some c => decide (c < msg.cursor)))
  | GetMessageAction.Get =>
      some (!msg.is_reserved now && !msg.is_expired now
        && (match gmo.mid with | none => true | some v => msg.mid == v)
        && (match gmo.cid with | none => true | some _ => msg.cid == gmo.cid)
        && (match gmo.cursor with | none => true | some c => decide (c < msg.cursor)))
  | GetMessageAction.Confirm =>
      if msg.is_reserved now then
        match gmo.mid with
        | none => none
        | some v => some (msg.mid == v)
      else some false
  | GetMessageAction.Reserve =>
      some (!msg.is_reserved now && !msg.is_expired now
        && (match gmo.mid with | none => true | some v => msg.mid == v)
        && (match gmo.cid with | none => true | some _ => msg.cid == gmo.cid)
        && (match gmo.cursor with | none => true | some c => decide (c < msg.cursor)))
  | GetMessageAction.Return =>
      if msg.is_reserved now then
        match gmo.mid with
        | none => none
        | some v => some (msg.mid == v)
      else some false
  | GetMessageAction.Query => none

/-- Lookup in the string-keyed parameter map (`HashMap<String, String>::get`);
the map is modelled as an association list with unique keys. -/
def lookupKey : List (String × String) → String → Option String
  | [], _ => none
  | (k, v) :: rest, key => if k = key then some v else lookupKey rest key

/-- Numeric value of a decimal digit character. -/
def digitVal (c : Char) : Nat := c.toNat - 48

/-- Rust `str::parse::<u64>()`: an optional leading plus sign, then one or more
ASCII decimal digits, value below 2^64. -/
def parseU64 (s : String) : Option Nat :=
  let cs := match s.data with
    | '+' :: rest => rest
    | cs => cs
  if cs.isEmpty then none
  else if cs.all Char.isDigit then
    let v := cs.foldl (fun acc c => acc * 10 + digitVal c) 0
    if v < 2 ^ 64 then some v else none
  else none

/-- Hexadecimal digit test (both cases), as accepted by `Uuid::try_parse`. -/
def isHexDigit (c : Char) : Bool :=
  c.isDigit || (97 ≤ c.toNat && c.toNat ≤ 102) || (65 ≤ c.toNat && c.toNat ≤ 70)

/-- Numeric value of a hexadecimal digit character. -/
def hexVal (c : Char) : Nat :=
  if c.isDigit then c.toNat - 48
  else if 97 ≤ c.toNat then c.toNat - 87
  else c.toNat - 55

/-- Splitting a character list at every dash. -/
def splitOnDash : List Char → List (List Char)
  | [] => [[]]
  | c :: rest =>
    let r := splitOnDash rest
    if c = '-' then [] :: r
    else
      match r with
      | [] => [[c]]
      | g :: gs => (c :: g) :: gs

/-- Rust `Uuid::try_parse`, modelled on the canonical hyphenated textual form
8-4-4-4-12 of lowercase or uppercase hexadecimal digits. -/
def uuidTryParse (s : String) : Option Uuid :=
  match splitOnDash s.data with
  | [a, b, c, d, e] =>
      if a.length == 8 && b.length == 4 && c.length == 4 && d.length == 4
          && e.length == 12 && (a ++ b ++ c ++ d ++ e).all isHexDigit then
        some ((a ++ b ++ c ++ d ++ e).foldl (fun acc ch => acc * 16 + hexVal ch) 0)
      else none
  | _ => none

/-- The `queue_name` line of `TryFrom<HashMap<String, String>> for
GetMessageOptions`: required, must be a valid `QueueName`. -/
def parseQueueName (m : List (String × String)) : Except GetMessageError QueueName :=
  match lookupKey m "queue_name" with
  | none => Except.error (GetMessageError.MissingParameter "queue_name")
  | some s =>
    match QueueName.tryFrom s with
    | Except.error _ => Except.error (GetMessageError.InvalidParameter "queue_name")
    | Except.ok qn => Except.ok qn

/-- The `action` line of the options parser: required, must be a known token. -/
def parseActionField (m : List (String × String)) : Except GetMessageError GetMessageAction :=
  match lookupKey m "action" with
  | none => Except.error (GetMessageError.MissingParameter "action")
  | some s => GetMessageAction.tryFrom s

/-- The `mid` line of the options parser: optional uuid. -/
def parseMid (m : List (String × String)) : Except GetMessageError (Option Uuid) :=
  match lookupKey m "mid" with
  | none => Except.ok none
  | some s =>
    match uuidTryParse s with
    | none => Except.error (GetMessageError.InvalidParameter "mid")
    | some u => Except.ok (some u)

/-- The `cid` line of the options parser: optional uuid. Faithfully to the
source, the error for a malformed value names `mid`, not `cid`. -/
def parseCid (m : List (String × String)) : Except GetMessageError (Option Uuid) :=
  match lookupKey m "cid" with
  | none => Except.ok none
  | some s =>
    match uuidTryParse s with
    | none => Except.error (GetMessageError.InvalidParameter "mid")
    | some u => Except.ok (some u)

/-- The `reservation_seconds` line of the options parser: optional
non-negative integer, turned into the absolute instant now + seconds. -/
def parseReservationField (m : List (String × String)) (now : Instant) :
    Except GetMessageError (Option Instant) :=
  match lookupKey m "reservation_seconds" with
  | none => Except.ok none
  | some s =>
    match parseU64 s with
    | none => Except.error (GetMessageError.InvalidParameter "reservation_seconds")
    | some i => Except.ok (some (now + i))

/-- The `expiry_seconds` line of the options parser: optional non-negative
integer, turned into the absolute instant now + seconds. Faithfully to the
source, the error for a malformed value names `reservation_seconds`. -/
def parseExpiryField (m : List (String × String)) (now : Instant) :
    Except GetMessageError (Option Instant) :=
  match lookupKey m "expiry_seconds" with
  | none => Except.ok none
  | some s =>
    match parseU64 s with
    | none => Except.error (GetMessageError.InvalidParameter "reservation_seconds")
    | some i => Except.ok (some (now + i))

/-- The `after` line of the options parser: optional non-negative position. -/
def parseAfter (m : List (String × String)) : Except GetMessageError (Option Nat) :=
  match lookupKey m "after" with
  | none => Except.ok none
  | some s =>
    match parseU64 s with
    | none => Except.error (GetMessageError.InvalidParameter "after")
    | some i => Except.ok (some i)

/-- Rust `impl TryFrom<HashMap<String, String>> for GetMessageOptions`: parse
each recognized key in source order (each `?` is an `Except.bind`), build the
record, then run the per-action validation. -/
def GetMessageOptions.tryFrom (m : List (String × String)) (now : Instant) :
    Except GetMessageError GetMessageOptions :=
  Except.bind (parseQueueName m) fun queue_name =>
  Except.bind (parseActionField m) fun action =>
  Except.bind (parseMid m) fun mid =>
  Except.bind (parseCid m) fun cid =>
  Except.bind (parseReservationField m now) fun reservation =>
  Except.bind (parseExpiryField m now) fun expiry =>
  Except.bind (parseAfter m) fun cursor =>
  let gmo : GetMessageOptions :=
    { queue_name := queue_name, action := action, mid := mid, cid := cid,
      reservation := reservation, expiry := expiry, cursor := cursor }
  Except.bind (action.validate gmo) fun _ =>
  Except.ok gmo

/-- Rust `struct QueueSummary`. -/
structure QueueSummary where
  queue_name : String
  depth : Nat
deriving DecidableEq

/-- Rust `QueueSummary::new`. -/
def QueueSummary.new (queue_name : QueueName) (depth : Nat) : QueueSummary :=
  { queue_name := queue_name.val, depth := depth }

/-- Rust `struct CreateMessageRequest`. -/
structure CreateMessageRequest where
  content : String
  cid : Option Uuid
  expiry : Option Instant
deriving DecidableEq

/-- Rust `struct Queue` from memory.rs: a deque of messages (head = front)
plus the monotone serial counter. -/
structure Queue where
  messages : List Message
  max_serial : Nat
deriving DecidableEq

/-- Rust `Default` for `Queue`. -/
def Queue.default : Queue :=
  { messages := [], max_serial := 0 }

/-- Rust `Queue::add_message`: bump the serial, stamp it as the message's
cursor, push the message at the back, return the stamped message. -/
def Queue.add_message (q : Queue) (message : Message) : Queue × Message :=
  let max_serial := q.max_serial + 1
  let message := message.set_cursor max_serial
  ({ messages := q.messages ++ [message], max_serial := max_serial }, message)

/-- Rust `struct Memory`: the queue-name-to-queue map (association list with
unique keys; the store-wide mutex is implicit in the sequential semantics). -/
structure Memory where
  queues : List (QueueName × Queue)
deriving DecidableEq

/-- Lookup of `HashMap<QueueName, Queue>::get`. -/
def lookupQueue : List (QueueName × Queue) → QueueName → Option Queue
  | [], _ => none
  | (k, v) :: rest, qn => if k = qn then some v else lookupQueue rest qn

/-- In-place replacement of the queue stored under a present key, modelling
mutation through `HashMap::get_mut`. -/
def updateQueue : List (QueueName × Queue) → QueueName → Queue → List (QueueName × Queue)
  | [], _, _ => []
  | (k, v) :: rest, qn, q => if k = qn then (qn, q) :: rest else (k, v) :: updateQueue rest qn q

/-- Rust `Iterator::position` over the message deque with the panic-capable
predicate `matches`: `none` is a panic inside the predicate, `some none` means
no element matched, `some (some i)` is the first matching index. -/
def positionMatch (gmo : GetMessageOptions) (now : Instant) : List Message → Option (Option Nat)
  | [] => some none
  | msg :: rest =>
    match gmo.matches now msg with
    | none => none
    | some true => some (some 0)
    | some false => (positionMatch gmo now rest).map (Option.map Nat.succ)

/-- Rust `Memory::get_message_impl`: apply the action's side effect at the
selected index. `none` is a panic: an out-of-range index, or the `todo!()` of
the Query arm. -/
def Memory.get_message_impl (gmo : GetMessageOptions) (queue : Queue) (idx : Nat) :
    Option (Message × Queue) :=
  match gmo.action with
  | GetMessageAction.Browse =>
      (queue.messages.get? idx).map (fun m => (m, queue))
  | GetMessageAction.Get =>
      (queue.messages.get? idx).map
        (fun m => (m, { queue with messages := queue.messages.eraseIdx idx }))
  | GetMessageAction.Confirm =>
      (queue.messages.get? idx).map
        (fun m => (m, { queue with messages := queue.messages.eraseIdx idx }))
  | GetMessageAction.Reserve =>
      (queue.messages.get? idx).map
        (fun m =>
          let m := m.set_reservation gmo.reservation
          (m, { queue with messages := queue.messages.set idx m }))
  | GetMessageAction.Return =>
      (queue.messages.get? idx).map
        (fun m =>
          let m := m.remove_reservation
          (m, { queue with messages := queue.messages.set idx m }))
  | GetMessageAction.Query => none

/-- Rust `Memory::get_message`: find the queue, scan for the first matching
message, apply the action's effect. The outer `Option` models a panic. -/
def Memory.get_message (mem : Memory) (gmo : GetMessageOptions) (now : Instant) :
    Option (Except GetMessageError (Message × Memory)) :=
  match lookupQueue mem.queues gmo.queue_name with
  | none =>
      some (Except.error (GetMessageError.NoMessage ("no queue " ++ gmo.queue_name.val)))
  | some queue =>
    match positionMatch gmo now queue.messages with
    | none => none
    | some none =>
        some (Except.error (GetMessageError.NoMessage gmo.queue_name.val))
    | some (some idx) =>
      match Memory.get_message_impl gmo queue idx with
      | none => none
      | some (msg, queue) =>
          some (Except.ok (msg, { queues := updateQueue mem.queues gmo.queue_name queue }))

/-- Rust `Memory::purge_expired_messages`: drop every currently expired message
from every queue; returns the updated store and the number of dropped messages. -/
def Memory.purge_expired_messages (mem : Memory) (now : Instant) : Memory × Nat :=
  let queues := mem.queues.map
    (fun p => (p.1, { p.2 with messages := p.2.messages.filter (fun m => !m.is_expired now) }))
  let dropped := (mem.queues.map
    (fun p => p.2.messages.length
      - (p.2.messages.filter (fun m => !m.is_expired now)).length)).sum
  ({ queues := queues }, dropped)

/-- Rust `Memory::create_message`: purge expired messages everywhere, build the
message from the request with the freshly drawn uuid `mid`, insert it into the
(lazily created) target queue. Always returns `ok`. -/
def Memory.create_message (mem : Memory) (queue_name : QueueName)
    (req : CreateMessageRequest) (mid : Uuid) (now : Instant) :
    Except CreateMessageError (Message × Memory) :=
  let mem := (mem.purge_expired_messages now).1
  let message := Message.new mid req.cid req.content req.expiry
  match lookupQueue mem.queues queue_name with
  | some entry =>
      let (entry, message) := entry.add_message message
      Except.ok (message, { queues := updateQueue mem.queues queue_name entry })
  | none =>
      let (entry, message) := Queue.default.add_message message
      Except.ok (message, { queues := mem.queues ++ [(queue_name, entry)] })

/-- Rust `Memory::queue_list`. -/
def Memory.queue_list (mem : Memory) : List String :=
  mem.queues.map (fun p => p.1.val)

/-- Rust `Memory::get_info`: the summary of one queue, depth = raw message
count of the queue's deque. -/
def Memory.get_info (mem : Memory) (gmo : GetMessageOptions) :
    Except QueueSummaryError QueueSummary :=
  match lookupQueue mem.queues gmo.queue_name with
  | none =>
      Except.error (QueueSummaryError.NoQueue ("no queue " ++ gmo.queue_name.val))
  | some queue => Except.ok (QueueSummary.new gmo.queue_name queue.messages.length)

/-! ## Specification-side definitions -/

/-- Eligibility of a message for the peek/take/lease (browse/get/reserve)
actions, written from the specification's words: not leased, not expired,
matches the id filter if present, matches the correlation-id filter if
present, and has position strictly greater than the `after` threshold if
present. -/
def eligibleSpec (gmo : GetMessageOptions) (now : Instant) (m : Message) : Bool :=
  !m.is_reserved now && !m.is_expired now
    && (match gmo.mid with | none => true | some v => m.mid == v)
    && (match gmo.cid with | none => true | some v => m.cid == some v)
    && (match gmo.cursor with | none => true | some c => decide (c < m.cursor))

/-! ## Shared lemmas -/

/-- The code's matching predicate agrees with the specification's eligibility
predicate on the browse/get/reserve actions (in particular it never panics
there). -/
theorem matches_eq_eligibleSpec (gmo : GetMessageOptions) (now : Instant) (msg : Message)
    (ha : gmo.action = GetMessageAction.Browse ∨ gmo.action = GetMessageAction.Get ∨
      gmo.action = GetMessageAction.Reserve) :
    gmo.matches now msg = some (eligibleSpec gmo now msg) := by
  rcases ha with h | h | h <;>
    · simp only [GetMessageOptions.matches, h, eligibleSpec]
      cases gmo.cid <;> simp

/-- Characterization of the scan `positionMatch` through `List.find?`, for a
total (never-panicking) matching predicate: the scan finds the index of the
first satisfying element, and every earlier element fails the predicate. -/
theorem positionMatch_spec (gmo : GetMessageOptions) (now : Instant) (p : Message → Bool)
    (l : List Message) (h : ∀ x ∈ l, gmo.matches now x = some (p x)) :
    match l.find? p with
    | none => positionMatch gmo now l = some none
    | some m => ∃ i, positionMatch gmo now l = some (some i) ∧ l.get? i = some m ∧
        ∀ j, j < i → ∃ y, l.get? j = some y ∧ p y = false := by
  induction l with
  | nil => simp [positionMatch]
  | cons msg rest ih =>
    have hm : gmo.matches now msg = some (p msg) := h msg (by simp)
    have hrest : ∀ x ∈ rest, gmo.matches now x = some (p x) :=
      fun x hx => h x (by simp [hx])
    specialize ih hrest
    by_cases hp : p msg = true
    · simp only [List.find?_cons, hp]
      exact ⟨0, by simp [positionMatch, hm, hp], by simp, fun j hj => absurd hj (by omega)⟩
    · have hp' : p msg = false := by simpa using hp
      simp only [List.find?_cons, hp']
      cases hfind : rest.find? p with
      | none =>
        rw [hfind] at ih
        simp [positionMatch, hm, hp', ih]
      | some m =>
        rw [hfind] at ih
        obtain ⟨i, h1, h2, h3⟩ := ih
        refine ⟨i + 1, ?_, by simpa using h2, ?_⟩
        · simp [positionMatch, hm, hp', h1]
        · intro j hj
          cases j with
          | zero => exact ⟨msg, by simp, hp'⟩
          | succ k =>
            obtain ⟨y, hy1, hy2⟩ := h3 k (by omega)
            exact ⟨y, by simpa using hy1, hy2⟩

/-- The effect stage of browse/get/reserve at a valid index returns a message
agreeing with the stored one on identity, correlation id, position, content
and expiry (only the reservation may change). -/
theorem get_message_impl_fields (gmo : GetMessageOptions) (q : Queue) (i : Nat) (m : Message)
    (ha : gmo.action = GetMessageAction.Browse ∨ gmo.action = GetMessageAction.Get ∨
      gmo.action = GetMessageAction.Reserve)
    (hget : q.messages.get? i = some m) :
    ∃ msg queue, Memory.get_message_impl gmo q i = some (msg, queue) ∧
      msg.mid = m.mid ∧ msg.cid = m.cid ∧ msg.cursor = m.cursor ∧
      msg.content = m.content ∧ msg.expiry = m.expiry := by
  rcases ha with h | h | h <;>
    simp only [Memory.get_message_impl, h, hget, Option.map_some]
  · exact ⟨m, q, rfl, rfl, rfl, rfl, rfl, rfl⟩
  · exact ⟨m, _, rfl, rfl, rfl, rfl, rfl, rfl⟩
  · refine ⟨m.set_reservation gmo.reservation, _, rfl, ?_⟩
    cases hr : gmo.reservation <;> simp [Message.set_reservation]

/-! ## Claims -/

/-- C1: for every queue and every validated request with action peek (browse),
take (get) or lease (reserve), selection scans the queue's message sequence in
ascending position order and returns the first (lowest-position) message that
is not leased, not expired, matches the id filter if present, matches the
correlation-id filter if present, and has position strictly greater than the
`after` threshold if present; with no filters this is the lowest-position
eligible message. -/
theorem C1_selection_returns_first_eligible
    (mem : Memory) (gmo : GetMessageOptions) (now : Instant) (q : Queue)
    (ha : gmo.action = GetMessageAction.Browse ∨ gmo.action = GetMessageAction.Get ∨
      gmo.action = GetMessageAction.Reserve)
    (_hv : gmo.action.validate gmo = Except.ok ())
    (hq : lookupQueue mem.queues gmo.queue_name = some q)
    (hsort : q.messages.Pairwise (fun a b => a.cursor < b.cursor)) :
    (q.messages.find? (eligibleSpec gmo now) = none →
      mem.get_message gmo now =
        some (Except.error (GetMessageError.NoMessage gmo.queue_name.val))) ∧
    (∀ m, q.messages.find? (eligibleSpec gmo now) = some m →
      (∃ msg mem', mem.get_message gmo now = some (Except.ok (msg, mem')) ∧
        msg.mid = m.mid ∧ msg.cid = m.cid ∧ msg.cursor = m.cursor ∧
        msg.content = m.content ∧ msg.expiry = m.expiry) ∧
      eligibleSpec gmo now m = true ∧ m ∈ q.messages ∧
      (∀ m' ∈ q.messages, eligibleSpec gmo now m' = true → m.cursor ≤ m'.cursor)) := by
  have hmatch : ∀ x ∈ q.messages, gmo.matches now x = some (eligibleSpec gmo now x) :=
    fun x _ => matches_eq_eligibleSpec gmo now x ha
  have hscan := positionMatch_spec gmo now (eligibleSpec gmo now) q.messages hmatch
  constructor
  · intro hnone
    rw [hnone] at hscan
    simp [Memory.get_message, hq, hscan]
  · intro m hsome
    rw [hsome] at hscan
    obtain ⟨i, hpos, hget, hprev⟩ := hscan
    obtain ⟨msg, queue, himpl, hfields⟩ := get_message_impl_fields gmo q i m ha hget
    refine ⟨⟨msg, { queues := updateQueue mem.queues gmo.queue_name queue }, ?_, hfields⟩,
      List.find?_some hsome, List.mem_of_find?_eq_some hsome, ?_⟩
    · simp [Memory.get_message, hq, hpos, himpl]
    · intro m' hm' hp'
      obtain ⟨j, hj⟩ := List.mem_iff_get.mp hm'
      obtain ⟨hi, hgi⟩ := List.get?_eq_some.mp hget
      rcases Nat.lt_trichotomy j.val i with hlt | heq | hgt
      · obtain ⟨y, hy1, hy2⟩ := hprev j.val hlt
        rw [List.get?_eq_get j.isLt, hj] at hy1
        cases hy1
        rw [hp'] at hy2
        cases hy2
      · have : m = m' := by
          rw [← hgi, ← hj]
          congr 1
          exact Fin.ext heq.symm
        exact this ▸ Nat.le_refl _
      · have := List.pairwise_iff_get.mp hsort ⟨i, hi⟩ j hgt
        rw [hgi, hj] at this
        exact Nat.le_of_lt this

/-! ## Sample data for witnesses -/

/-- Sample queue name. -/
def wqn : QueueName := { val := "q1" }

/-- Sample message at position 1, leased until instant 10. -/
def wm1 : Message :=
  { mid := 11, cid := none, cursor := 1, content := "m1",
    reservation := Reservation.Until 10, expiry := Expiry.Permanent }

/-- Sample message at position 2, unleased and permanent. -/
def wm2 : Message :=
  { mid := 22, cid := none, cursor := 2, content := "m2",
    reservation := Reservation.Unreserved, expiry := Expiry.Permanent }

/-- Sample queue holding the two sample messages. -/
def wq : Queue := { messages := [wm1, wm2], max_serial := 2 }

/-- Sample store holding the sample queue. -/
def wmem : Memory := { queues := [(wqn, wq)] }

/-- Sample filterless browse request on the sample queue. -/
def wgmoBrowse : GetMessageOptions :=
  { queue_name := wqn, action := GetMessageAction.Browse, mid := none, cid := none,
    reservation := none, expiry := none, cursor := none }

/-- Witness for C1 at a concrete store: the sample queue at instant 0 (where
the position-1 message is still leased) satisfies every hypothesis, and the
conclusion holds there. -/
theorem C1_selection_returns_first_eligible_witness :
    (wgmoBrowse.action = GetMessageAction.Browse ∨
      wgmoBrowse.action = GetMessageAction.Get ∨
      wgmoBrowse.action = GetMessageAction.Reserve) ∧
    wgmoBrowse.action.validate wgmoBrowse = Except.ok () ∧
    lookupQueue wmem.queues wgmoBrowse.queue_name = some wq ∧
    wq.messages.Pairwise (fun a b => a.cursor < b.cursor) ∧
    ((wq.messages.find? (eligibleSpec wgmoBrowse 0) = none →
      wmem.get_message wgmoBrowse 0 =
        some (Except.error (GetMessageError.NoMessage wgmoBrowse.queue_name.val))) ∧
    (∀ m, wq.messages.find? (eligibleSpec wgmoBrowse 0) = some m →
      (∃ msg mem', wmem.get_message wgmoBrowse 0 = some (Except.ok (msg, mem')) ∧
        msg.mid = m.mid ∧ msg.cid = m.cid ∧ msg.cursor = m.cursor ∧
        msg.content = m.content ∧ msg.expiry = m.expiry) ∧
      eligibleSpec wgmoBrowse 0 m = true ∧ m ∈ wq.messages ∧
      (∀ m' ∈ wq.messages, eligibleSpec wgmoBrowse 0 m' = true → m.cursor ≤ m'.cursor))) :=
  ⟨Or.inl rfl, rfl, by decide, by decide,
    C1_selection_returns_first_eligible wmem wgmoBrowse 0 wq (Or.inl rfl)
      rfl (by decide) (by decide)⟩

deriving instance DecidableEq for Except

/-- Inversion of `Except.bind` ending in success. -/
theorem except_bind_ok {ε α β : Type} (e : Except ε α) (f : α → Except ε β) (b : β)
    (h : Except.bind e f = Except.ok b) : ∃ a, e = Except.ok a ∧ f a = Except.ok b := by
  cases e with
  | error err => simp [Except.bind] at h
  | ok a => exact ⟨a, rfl, by simpa [Except.bind] using h⟩

/-- C4: for every request with action info (query), processing produces a
QueueSummary (for a present queue, its name and raw depth) and never
evaluates the per-message matching predicate: the predicate is undefined
(a panic, modelled `none`) for the query action, and routing a query request
through message selection on a non-empty queue would panic, so the info
action never reaches selection. -/
theorem C4_info_never_reaches_selection (mem : Memory) (gmo : GetMessageOptions)
    (ha : gmo.action = GetMessageAction.Query) :
    (∀ q, lookupQueue mem.queues gmo.queue_name = some q →
      mem.get_info gmo = Except.ok (QueueSummary.new gmo.queue_name q.messages.length)) ∧
    (∀ now m, gmo.matches now m = none) ∧
    (∀ now q, lookupQueue mem.queues gmo.queue_name = some q → q.messages ≠ [] →
      mem.get_message gmo now = none) := by
  refine ⟨?_, ?_, ?_⟩
  · intro q hq
    simp [Memory.get_info, hq]
  · intro now m
    simp [GetMessageOptions.matches, ha]
  · intro now q hq hne
    cases hcase : q.messages with
    | nil => exact absurd hcase hne
    | cons m rest =>
      simp [Memory.get_message, hq, hcase, positionMatch, GetMessageOptions.matches, ha]

/-- Sample query request on the sample queue. -/
def wgmoQuery : GetMessageOptions :=
  { queue_name := wqn, action := GetMessageAction.Query, mid := none, cid := none,
    reservation := none, expiry := none, cursor := none }

/-- Witness for C4 at the concrete sample store. -/
theorem C4_info_never_reaches_selection_witness :
    wgmoQuery.action = GetMessageAction.Query ∧
    ((∀ q, lookupQueue wmem.queues wgmoQuery.queue_name = some q →
      wmem.get_info wgmoQuery =
        Except.ok (QueueSummary.new wgmoQuery.queue_name q.messages.length)) ∧
    (∀ now m, wgmoQuery.matches now m = none) ∧
    (∀ now q, lookupQueue wmem.queues wgmoQuery.queue_name = some q → q.messages ≠ [] →
      wmem.get_message wgmoQuery now = none)) :=
  ⟨rfl, C4_info_never_reaches_selection wmem wgmoQuery rfl⟩

/-- C10: for every queue known to the store, the reported summary depth is the
raw count of the messages currently stored in that queue's sequence, with no
filtering by lease or expiry state. -/
theorem C10_depth_is_raw_count (mem : Memory) (gmo : GetMessageOptions) (q : Queue)
    (hq : lookupQueue mem.queues gmo.queue_name = some q) :
    mem.get_info gmo =
      Except.ok { queue_name := gmo.queue_name.val, depth := q.messages.length } := by
  simp [Memory.get_info, hq, QueueSummary.new]

/-- Sample message that is already expired at instant 20. -/
def wmExpired : Message :=
  { mid := 33, cid := none, cursor := 3, content := "m3",
    reservation := Reservation.Unreserved, expiry := Expiry.Expire 20 }

/-- Sample store whose queue holds one leased and one expired message. -/
def wmemC10 : Memory :=
  { queues := [(wqn, { messages := [wm1, wmExpired], max_serial := 3 })] }

/-- Witness for C10: a queue holding a currently leased message and an already
expired one reports depth 2 (both are counted). -/
theorem C10_depth_is_raw_count_witness :
    lookupQueue wmemC10.queues wgmoQuery.queue_name =
      some { messages := [wm1, wmExpired], max_serial := 3 } ∧
    wmemC10.get_info wgmoQuery = Except.ok { queue_name := "q1", depth := 2 } :=
  ⟨by decide,
    C10_depth_is_raw_count wmemC10 wgmoQuery
      { messages := [wm1, wmExpired], max_serial := 3 } (by decide)⟩

/-- C9: the per-action field rules are enforced at construction: lease
(reserve) without a lease duration is a missing parameter; ack (confirm) and
release (return) without an id are a missing parameter; peek (browse) and
info (query) with a lease duration present are an invalid parameter; take
(get) requires and forbids nothing; and a parameter map that constructs
successfully always satisfies the validation, so an invalid combination never
produces a value. -/
theorem C9_per_action_field_rules (gmo : GetMessageOptions) :
    (gmo.action = GetMessageAction.Reserve → gmo.reservation = none →
      gmo.action.validate gmo =
        Except.error (GetMessageError.MissingParameter "reservation_seconds")) ∧
    ((gmo.action = GetMessageAction.Confirm ∨ gmo.action = GetMessageAction.Return) →
      gmo.mid = none →
      gmo.action.validate gmo = Except.error (GetMessageError.MissingParameter "id")) ∧
    ((gmo.action = GetMessageAction.Browse ∨ gmo.action = GetMessageAction.Query) →
      ∀ t, gmo.reservation = some t →
      gmo.action.validate gmo =
        Except.error (GetMessageError.InvalidParameter "reservation_seconds")) ∧
    (gmo.action = GetMessageAction.Get → gmo.action.validate gmo = Except.ok ()) ∧
    (∀ m now gmo2, GetMessageOptions.tryFrom m now = Except.ok gmo2 →
      gmo2.action.validate gmo2 = Except.ok ()) := by
  refine ⟨?_, ?_, ?_, ?_, ?_⟩
  · intro ha hr
    simp [GetMessageAction.validate, ha, GetMessageOptions.needs_reservation, hr]
  · rintro (ha | ha) hm <;>
      simp [GetMessageAction.validate, ha, GetMessageOptions.needs_mid, hm]
  · rintro (ha | ha) t hr <;>
      simp [GetMessageAction.validate, ha, GetMessageOptions.no_reservation, hr]
  · intro ha
    simp [GetMessageAction.validate, ha]
  · intro m now gmo2 h
    unfold GetMessageOptions.tryFrom at h
    obtain ⟨qn, h1, h⟩ := except_bind_ok _ _ _ h
    obtain ⟨act, h2, h⟩ := except_bind_ok _ _ _ h
    obtain ⟨mid, h3, h⟩ := except_bind_ok _ _ _ h
    obtain ⟨cid, h4, h⟩ := except_bind_ok _ _ _ h
    obtain ⟨res, h5, h⟩ := except_bind_ok _ _ _ h
    obtain ⟨exp, h6, h⟩ := except_bind_ok _ _ _ h
    obtain ⟨cur, h7, h⟩ := except_bind_ok _ _ _ h
    obtain ⟨u, h8, h⟩ := except_bind_ok _ _ _ h
    cases h
    cases u
    exact h8

/-- Witness for C9 at a concrete value: an unvalidated reserve descriptor with
no reservation instant is rejected by validation, and a concrete well-formed
map constructs successfully. -/
theorem C9_per_action_field_rules_witness :
    (let gmo : GetMessageOptions :=
      { queue_name := wqn, action := GetMessageAction.Reserve, mid := none, cid := none,
        reservation := none, expiry := none, cursor := none }
     gmo.action = GetMessageAction.Reserve ∧ gmo.reservation = none ∧
      gmo.action.validate gmo =
        Except.error (GetMessageError.MissingParameter "reservation_seconds")) :=
  ⟨rfl, rfl, ((C9_per_action_field_rules _).1 rfl rfl)⟩

/-- C3 failing input: the code reports a malformed optional `cid` as
`InvalidParameter("mid")` and a malformed optional `expiry_seconds` as
`InvalidParameter("reservation_seconds")`, instead of naming the offending
field; the other optional fields and the missing required fields behave as
the claim states. -/
theorem C3_malformed_field_misnamed :
    GetMessageOptions.tryFrom [("queue_name", "q1"), ("action", "get"), ("cid", "oops")] 0 =
      Except.error (GetMessageError.InvalidParameter "mid") ∧
    GetMessageOptions.tryFrom
        [("queue_name", "q1"), ("action", "get"), ("expiry_seconds", "oops")] 0 =
      Except.error (GetMessageError.InvalidParameter "reservation_seconds") ∧
    GetMessageOptions.tryFrom [("queue_name", "q1"), ("action", "get"), ("mid", "oops")] 0 =
      Except.error (GetMessageError.InvalidParameter "mid") ∧
    GetMessageOptions.tryFrom [("queue_name", "q1"), ("action", "get"), ("after", "oops")] 0 =
      Except.error (GetMessageError.InvalidParameter "after") ∧
    GetMessageOptions.tryFrom
        [("queue_name", "q1"), ("action", "get"), ("reservation_seconds", "oops")] 0 =
      Except.error (GetMessageError.InvalidParameter "reservation_seconds") ∧
    GetMessageOptions.tryFrom [("action", "get")] 0 =
      Except.error (GetMessageError.MissingParameter "queue_name") ∧
    GetMessageOptions.tryFrom [("queue_name", "q1")] 0 =
      Except.error (GetMessageError.MissingParameter "action") := by
  refine ⟨?_, ?_, ?_, ?_, ?_, ?_, ?_⟩ <;> decide

/-! ## Store lemmas -/

/-- A successful lookup exhibits the pair in the association list. -/
theorem lookupQueue_mem {l : List (QueueName × Queue)} {qn : QueueName} {q : Queue}
    (h : lookupQueue l qn = some q) : (qn, q) ∈ l := by
  induction l with
  | nil => simp [lookupQueue] at h
  | cons p rest ih =>
    obtain ⟨k, v⟩ := p
    by_cases hk : k = qn
    · subst hk
      simp [lookupQueue] at h
      subst h
      exact List.mem_cons_self _ _
    · simp only [lookupQueue, if_neg hk] at h
      exact List.mem_cons_of_mem _ (ih h)

/-- Updating a present key makes subsequent lookups of that key see the new
value. -/
theorem lookupQueue_update_self {l : List (QueueName × Queue)} {qn : QueueName} {q0 : Queue}
    (q : Queue) (h : lookupQueue l qn = some q0) :
    lookupQueue (updateQueue l qn q) qn = some q := by
  induction l with
  | nil => simp [lookupQueue] at h
  | cons p rest ih =>
    obtain ⟨k, v⟩ := p
    by_cases hk : k = qn
    · subst hk
      simp [updateQueue, lookupQueue]
    · simp only [lookupQueue, if_neg hk] at h
      simp [updateQueue, lookupQueue, if_neg hk, ih h]

/-- Updating one key leaves lookups of any other key unchanged. -/
theorem lookupQueue_update_ne {l : List (QueueName × Queue)} {qn qn' : QueueName}
    (q : Queue) (h : qn' ≠ qn) :
    lookupQueue (updateQueue l qn q) qn' = lookupQueue l qn' := by
  induction l with
  | nil => simp [lookupQueue, updateQueue]
  | cons p rest ih =>
    obtain ⟨k, v⟩ := p
    by_cases hk : k = qn
    · have hne : k ≠ qn' := by
        rw [hk]
        exact Ne.symm h
      simp [updateQueue, lookupQueue, hk, hne, Ne.symm h]
    · simp [updateQueue, lookupQueue, if_neg hk, ih]

/-- Lookup distributes over append: the left list wins when it has the key. -/
theorem lookupQueue_append (l l' : List (QueueName × Queue)) (qn : QueueName) :
    lookupQueue (l ++ l') qn =
      match lookupQueue l qn with
      | some v => some v
      | none => lookupQueue l' qn := by
  induction l with
  | nil => simp [lookupQueue]
  | cons p rest ih =>
    obtain ⟨k, v⟩ := p
    by_cases hk : k = qn
    · simp [lookupQueue, hk]
    · simp [lookupQueue, hk, ih]

/-- The expiry sweep acts pointwise: looking a queue up after the sweep gives
the old queue with its expired messages filtered out and the serial counter
untouched. -/
theorem lookupQueue_purge (mem : Memory) (now : Instant) (qn : QueueName) :
    lookupQueue ((mem.purge_expired_messages now).1).queues qn =
      (lookupQueue mem.queues qn).map
        (fun q => { messages := q.messages.filter (fun m => !m.is_expired now),
                    max_serial := q.max_serial }) := by
  show lookupQueue (mem.queues.map _) qn = _
  induction mem.queues with
  | nil => simp [lookupQueue]
  | cons p rest ih =>
    obtain ⟨k, v⟩ := p
    by_cases hk : k = qn
    · simp [lookupQueue, hk]
    · simp [lookupQueue, hk, ih]

/-- A scan over messages that all fail the predicate finds nothing. -/
theorem positionMatch_all_false (gmo : GetMessageOptions) (now : Instant) (l : List Message)
    (h : ∀ x ∈ l, gmo.matches now x = some false) :
    positionMatch gmo now l = some none := by
  induction l with
  | nil => rfl
  | cons m rest ih =>
    have hm := h m (by simp)
    have := ih (fun x hx => h x (by simp [hx]))
    simp [positionMatch, hm, this]

/-- A scan over a failing prefix followed by a matching message stops exactly
at the end of the prefix. -/
theorem positionMatch_first_true (gmo : GetMessageOptions) (now : Instant)
    (l1 : List Message) (m : Message) (l2 : List Message)
    (h1 : ∀ x ∈ l1, gmo.matches now x = some false)
    (hm : gmo.matches now m = some true) :
    positionMatch gmo now (l1 ++ m :: l2) = some (some l1.length) := by
  induction l1 with
  | nil => simp [positionMatch, hm]
  | cons c cs ih =>
    have hc := h1 c (by simp)
    have := ih (fun x hx => h1 x (by simp [hx]))
    simp [positionMatch, hc, this]

/-- Overwriting the element after a prefix. -/
theorem set_append_length {α : Type} (l1 : List α) (m m' : α) (l2 : List α) :
    (l1 ++ m :: l2).set l1.length m' = l1 ++ m' :: l2 := by
  induction l1 with
  | nil => rfl
  | cons c cs ih => simp [List.set, ih]

/-- The get/take matching predicate fails on any message whose id differs from
the requested id filter, whatever its other fields. -/
theorem matches_false_of_mid_ne (gmo : GetMessageOptions) (now : Instant) (x : Message)
    (ha : gmo.action = GetMessageAction.Browse ∨ gmo.action = GetMessageAction.Get ∨
      gmo.action = GetMessageAction.Reserve)
    (u : Uuid) (hmid : gmo.mid = some u) (hne : x.mid ≠ u) :
    gmo.matches now x = some false := by
  have hx : (x.mid == u) = false := by simp [hne]
  rcases ha with h | h | h <;> simp [GetMessageOptions.matches, h, hmid, hx]

/-- Serial counter of a queue in the store (0 for an absent queue, matching
the `Default` used by lazy creation). -/
def serialOf (mem : Memory) (qn : QueueName) : Nat :=
  match lookupQueue mem.queues qn with
  | some q => q.max_serial
  | none => 0

/-- Message sequence of a queue in the store (empty for an absent queue). -/
def messagesOf (mem : Memory) (qn : QueueName) : List Message :=
  match lookupQueue mem.queues qn with
  | some q => q.messages
  | none => []

/-- Full characterization of `create_message`: it always succeeds, returns the
new message stamped with the purged store's next serial for the target queue,
appends it to that (lazily created) queue, and leaves every other queue as the
purge left it. -/
theorem create_message_spec (mem : Memory) (qn : QueueName) (req : CreateMessageRequest)
    (mid : Uuid) (now : Instant) :
    ∃ mem',
      mem.create_message qn req mid now = Except.ok
        ((Message.new mid req.cid req.content req.expiry).set_cursor
          (serialOf (mem.purge_expired_messages now).1 qn + 1), mem') ∧
      lookupQueue mem'.queues qn = some
        { messages := messagesOf (mem.purge_expired_messages now).1 qn ++
            [(Message.new mid req.cid req.content req.expiry).set_cursor
              (serialOf (mem.purge_expired_messages now).1 qn + 1)],
          max_serial := serialOf (mem.purge_expired_messages now).1 qn + 1 } ∧
      ∀ qn', qn' ≠ qn → lookupQueue mem'.queues qn' =
        lookupQueue ((mem.purge_expired_messages now).1).queues qn' := by
  cases hl : lookupQueue ((mem.purge_expired_messages now).1).queues qn with
  | some entry =>
    refine ⟨Memory.mk (updateQueue ((mem.purge_expired_messages now).1).queues qn
      (Queue.mk (entry.messages ++
        [(Message.new mid req.cid req.content req.expiry).set_cursor
          (entry.max_serial + 1)])
        (entry.max_serial + 1))), ?_, ?_, ?_⟩
    · simp [Memory.create_message, hl, Queue.add_message, serialOf]
    · simp only [serialOf, messagesOf, hl]
      exact lookupQueue_update_self _ hl
    · intro qn' hne
      exact lookupQueue_update_ne _ hne
  | none =>
    refine ⟨Memory.mk (((mem.purge_expired_messages now).1).queues ++
      [(qn, Queue.mk ([] ++
        [(Message.new mid req.cid req.content req.expiry).set_cursor (0 + 1)])
        (0 + 1))]), ?_, ?_, ?_⟩
    · simp [Memory.create_message, hl, Queue.add_message, serialOf, Queue.default]
    · simp only [serialOf, messagesOf, hl]
      rw [lookupQueue_append, hl]
      simp [lookupQueue]
    · intro qn' hne
      rw [lookupQueue_append]
      cases hl' : lookupQueue ((mem.purge_expired_messages now).1).queues qn' <;>
        simp [lookupQueue, hne, Ne.symm hne]

/-- Request descriptor for a take (get) targeting one message id. -/
def takeByMid (qn : QueueName) (mid : Uuid) : GetMessageOptions :=
  { queue_name := qn, action := GetMessageAction.Get, mid := some mid, cid := none,
    reservation := none, expiry := none, cursor := none }

/-- Every message already in the store before a creation has a different id
from a fresh id, even after the expiry sweep. -/
theorem purged_messages_fresh (mem : Memory) (qn : QueueName) (mid : Uuid) (now : Instant)
    (hfresh : ∀ p ∈ mem.queues, ∀ m ∈ p.2.messages, m.mid ≠ mid) :
    ∀ m ∈ messagesOf (mem.purge_expired_messages now).1 qn, m.mid ≠ mid := by
  intro m hm
  unfold messagesOf at hm
  cases hpq : lookupQueue ((mem.purge_expired_messages now).1).queues qn with
  | none => rw [hpq] at hm; simp at hm
  | some pq =>
    rw [hpq] at hm
    rw [lookupQueue_purge] at hpq
    obtain ⟨q0, hq0, hfq⟩ := Option.map_eq_some'.mp hpq
    have : m ∈ q0.messages := by
      rw [← hfq] at hm
      exact (List.mem_filter.mp hm).1
    exact hfresh (qn, q0) (lookupQueue_mem hq0) m this

/-- C2: creating a message with content C and then taking it by its returned
id yields content C again and removes the message from the queue; a second
take by the same id then fails with NoMessage. The fresh-uuid assumption of
`Uuid::new_v4` is the hypothesis that the drawn id is not already in the
store. -/
theorem C2_create_take_roundtrip
    (mem : Memory) (qn : QueueName) (content : String) (cid : Option Uuid)
    (mid : Uuid) (now1 now2 now3 : Instant)
    (hfresh : ∀ p ∈ mem.queues, ∀ m ∈ p.2.messages, m.mid ≠ mid) :
    ∃ msg mem1 msg2 mem2,
      mem.create_message qn { content := content, cid := cid, expiry := none } mid now1
        = Except.ok (msg, mem1) ∧
      msg.content = content ∧ msg.mid = mid ∧
      mem1.get_message (takeByMid qn mid) now2 = some (Except.ok (msg2, mem2)) ∧
      msg2.content = content ∧ msg2.mid = mid ∧
      (∀ q, lookupQueue mem2.queues qn = some q → ∀ m ∈ q.messages, m.mid ≠ mid) ∧
      mem2.get_message (takeByMid qn mid) now3 =
        some (Except.error (GetMessageError.NoMessage qn.val)) := by
  obtain ⟨mem1, hc, hq1, _⟩ :=
    create_message_spec mem qn { content := content, cid := cid, expiry := none } mid now1
  set L := messagesOf (mem.purge_expired_messages now1).1 qn with hL
  set k := serialOf (mem.purge_expired_messages now1).1 qn with hk
  set msg := (Message.new mid cid content none).set_cursor (k + 1) with hmsg
  have hLfresh : ∀ m ∈ L, m.mid ≠ mid := purged_messages_fresh mem qn mid now1 hfresh
  have hmsgfields : msg.content = content ∧ msg.mid = mid ∧
      msg.reservation = Reservation.Unreserved ∧ msg.expiry = Expiry.Permanent := by
    simp [hmsg, Message.new, Message.set_cursor, Expiry.fromOpt]
  have hmtrue : ∀ now', (takeByMid qn mid).matches now' msg = some true := by
    intro now'
    simp [takeByMid, GetMessageOptions.matches, Message.is_reserved, Message.is_expired,
      hmsgfields.2.2.1, hmsgfields.2.2.2, hmsgfields.2.1]
  have hmfalse : ∀ now' : Instant, ∀ x ∈ L, (takeByMid qn mid).matches now' x = some false :=
    fun now' x hx =>
      matches_false_of_mid_ne _ now' x (Or.inr (Or.inl rfl)) mid rfl (hLfresh x hx)
  have hscan : positionMatch (takeByMid qn mid) now2 (L ++ [msg]) = some (some L.length) :=
    positionMatch_first_true _ _ L msg [] (hmfalse now2) (hmtrue now2)
  have hscan3 : positionMatch (takeByMid qn mid) now3 L = some none :=
    positionMatch_all_false _ _ _ (hmfalse now3)
  simp only [takeByMid] at hscan hscan3
  refine ⟨msg, mem1, msg,
    Memory.mk (updateQueue mem1.queues qn (Queue.mk L (k + 1))),
    hc, hmsgfields.1, hmsgfields.2.1, ?_, hmsgfields.1, hmsgfields.2.1, ?_, ?_⟩
  · simp only [Memory.get_message, takeByMid, hq1, hscan, Memory.get_message_impl,
      List.get?_concat_length, Option.map_some]
    rw [List.eraseIdx_append_of_length_le (Nat.le_refl _)]
    simp
  · intro q hq m hm
    rw [lookupQueue_update_self (Queue.mk L (k + 1)) hq1] at hq
    cases hq
    exact hLfresh m hm
  · have hq2 : lookupQueue (updateQueue mem1.queues qn (Queue.mk L (k + 1))) qn =
        some (Queue.mk L (k + 1)) := lookupQueue_update_self _ hq1
    simp only [Memory.get_message, takeByMid, hq2, hscan3]

/-- The browse/get/reserve matching predicate fails on a currently leased
message. -/
theorem matches_false_of_reserved (gmo : GetMessageOptions) (now : Instant) (x : Message)
    (ha : gmo.action = GetMessageAction.Browse ∨ gmo.action = GetMessageAction.Get ∨
      gmo.action = GetMessageAction.Reserve)
    (hres : x.is_reserved now = true) :
    gmo.matches now x = some false := by
  rcases ha with h | h | h <;> simp [GetMessageOptions.matches, h, hres]

/-- The browse/get/reserve matching predicate fails on an expired message,
regardless of its lease state. -/
theorem matches_false_of_expired (gmo : GetMessageOptions) (now : Instant) (x : Message)
    (ha : gmo.action = GetMessageAction.Browse ∨ gmo.action = GetMessageAction.Get ∨
      gmo.action = GetMessageAction.Reserve)
    (hexp : x.is_expired now = true) :
    gmo.matches now x = some false := by
  rcases ha with h | h | h <;> simp [GetMessageOptions.matches, h, hexp]

/-- The confirm/return matching predicate with an id filter present is total:
it requires the message to be currently leased and to carry the requested id. -/
theorem matches_confirm_return (gmo : GetMessageOptions) (now : Instant) (x : Message)
    (ha : gmo.action = GetMessageAction.Confirm ∨ gmo.action = GetMessageAction.Return)
    (u : Uuid) (hmid : gmo.mid = some u) :
    gmo.matches now x = some (x.is_reserved now && (x.mid == u)) := by
  rcases ha with h | h <;>
    · simp only [GetMessageOptions.matches, h, hmid]
      cases hr : x.is_reserved now <;> simp

/-- A successful `find?` splits the list into a failing prefix, the found
element, and a suffix. -/
theorem find?_decomp {α : Type} (p : α → Bool) (l : List α) (m : α)
    (h : l.find? p = some m) :
    ∃ l1 l2, l = l1 ++ m :: l2 ∧ ∀ y ∈ l1, p y = false := by
  induction l with
  | nil => simp [List.find?] at h
  | cons c cs ih =>
    by_cases hp : p c = true
    · rw [List.find?_cons, hp] at h
      cases h
      exact ⟨[], cs, rfl, by simp⟩
    · have hp' : p c = false := by simpa using hp
      rw [List.find?_cons, hp'] at h
      obtain ⟨l1, l2, heq, hall⟩ := ih h
      refine ⟨c :: l1, l2, by simp [heq], ?_⟩
      intro y hy
      rcases List.mem_cons.mp hy with hy | hy
      · exact hy ▸ hp'
      · exact hall y hy

/-- Indexing just past a prefix. -/
theorem get?_append_cons {α : Type} (l1 : List α) (m : α) (l2 : List α) :
    (l1 ++ m :: l2).get? l1.length = some m := by
  rw [List.get?_append_right (Nat.le_refl _)]
  simp

/-- C6: a message carrying an expiry instant (as produced by creating with
`expiry_seconds = E`, which stores creation_time + E) is unselectable by
peek, take and lease once now is at or past that instant, regardless of its
lease state: selection targeting its id returns NoMessage. -/
theorem C6_expired_message_unselectable
    (mem : Memory) (qn : QueueName) (q : Queue) (m : Message) (e : Instant)
    (hq : lookupQueue mem.queues qn = some q)
    (hexp : m.expiry = Expiry.Expire e)
    (huniq : ∀ m' ∈ q.messages, m'.mid = m.mid → m' = m)
    (gmo : GetMessageOptions)
    (hgqn : gmo.queue_name = qn)
    (hga : gmo.action = GetMessageAction.Browse ∨ gmo.action = GetMessageAction.Get ∨
      gmo.action = GetMessageAction.Reserve)
    (hgmid : gmo.mid = some m.mid) :
    ∀ now, e ≤ now →
      mem.get_message gmo now = some (Except.error (GetMessageError.NoMessage qn.val)) := by
  intro now hnow
  have hmexp : m.is_expired now = true := by
    simp [Message.is_expired, hexp, hnow]
  have hall : ∀ x ∈ q.messages, gmo.matches now x = some false := by
    intro x hx
    by_cases hxm : x.mid = m.mid
    · have hxe : x = m := huniq x hx hxm
      subst hxe
      exact matches_false_of_expired gmo now x hga hmexp
    · exact matches_false_of_mid_ne gmo now x hga m.mid hgmid hxm
  have hscan := positionMatch_all_false gmo now q.messages hall
  simp [Memory.get_message, hgqn, hq, hscan]

/-- Request descriptor for a release (return) targeting one message id. -/
def releaseByMid (qn : QueueName) (mid : Uuid) : GetMessageOptions :=
  { queue_name := qn, action := GetMessageAction.Return, mid := some mid, cid := none,
    reservation := none, expiry := none, cursor := none }

/-- C5: once a message is leased until instant r, any take/lease/peek attempt
targeting its id fails with NoMessage at every instant before r; the message
becomes selectable again once now reaches r (lease lapses lazily), or
immediately after a release (return) of its id, whichever comes first. -/
theorem C5_lease_exclusivity
    (mem : Memory) (qn : QueueName) (msgs : List Message) (ms : Nat)
    (m : Message) (r : Instant)
    (hq : lookupQueue mem.queues qn = some (Queue.mk msgs ms))
    (hm : m ∈ msgs)
    (hres : m.reservation = Reservation.Until r)
    (huniq : ∀ m' ∈ msgs, m'.mid = m.mid → m' = m)
    (gmo : GetMessageOptions)
    (hgqn : gmo.queue_name = qn)
    (hga : gmo.action = GetMessageAction.Browse ∨ gmo.action = GetMessageAction.Get ∨
      gmo.action = GetMessageAction.Reserve)
    (hgmid : gmo.mid = some m.mid)
    (hgcid : gmo.cid = none) (hgcur : gmo.cursor = none) :
    (∀ now, now < r →
      mem.get_message gmo now = some (Except.error (GetMessageError.NoMessage qn.val))) ∧
    (∀ now, r ≤ now → m.is_expired now = false →
      ∃ msg2 mem2, mem.get_message gmo now = some (Except.ok (msg2, mem2)) ∧
        msg2.mid = m.mid) ∧
    (∀ now, now < r → m.is_expired now = false →
      ∃ m2 mem2,
        mem.get_message (releaseByMid qn m.mid) now = some (Except.ok (m2, mem2)) ∧
        m2.reservation = Reservation.Unreserved ∧ m2.mid = m.mid ∧
        ∃ msg3 mem3, mem2.get_message gmo now = some (Except.ok (msg3, mem3)) ∧
          msg3.mid = m.mid) := by
  refine ⟨?_, ?_, ?_⟩
  · -- before r: the lease excludes every id-targeting selection
    intro now hnow
    have hrsv : m.is_reserved now = true := by
      simp [Message.is_reserved, hres, hnow]
    have hall : ∀ x ∈ msgs, gmo.matches now x = some false := by
      intro x hx
      by_cases hxm : x.mid = m.mid
      · rw [huniq x hx hxm]
        exact matches_false_of_reserved gmo now m hga hrsv
      · exact matches_false_of_mid_ne gmo now x hga m.mid hgmid hxm
    have hscan := positionMatch_all_false gmo now msgs hall
    simp [Memory.get_message, hgqn, hq, hscan]
  · -- at or past r: the lease has lapsed, selection succeeds again
    intro now hnow hnexp
    have hmatch : ∀ x ∈ msgs, gmo.matches now x = some (eligibleSpec gmo now x) :=
      fun x _ => matches_eq_eligibleSpec gmo now x hga
    have hpm : eligibleSpec gmo now m = true := by
      simp [eligibleSpec, hgmid, hgcid, hgcur, hnexp, Message.is_reserved, hres,
        Nat.not_lt.mpr hnow]
    have hspec := positionMatch_spec gmo now (eligibleSpec gmo now) msgs hmatch
    cases hfind : msgs.find? (eligibleSpec gmo now) with
    | none =>
      have := List.find?_eq_none.mp hfind m hm
      rw [hpm] at this
      simp at this
    | some res =>
      rw [hfind] at hspec
      obtain ⟨i, hpos, hget, _⟩ := hspec
      obtain ⟨msg2, queue2, himpl, hfields⟩ :=
        get_message_impl_fields gmo (Queue.mk msgs ms) i res hga hget
      have hresmid : res.mid = m.mid := by
        have h1 := List.find?_some hfind
        simp only [eligibleSpec, hgmid, hgcid, hgcur] at h1
        simp only [Bool.and_eq_true, beq_iff_eq] at h1
        tauto
      refine ⟨msg2, Memory.mk (updateQueue mem.queues qn queue2), ?_, ?_⟩
      · simp only [Memory.get_message, hgqn, hq, hpos, himpl]
      · rw [hfields.1, hresmid]
  · -- before r: release clears the lease and the message is selectable again
    intro now hnow hnexp
    have hrsv : m.is_reserved now = true := by
      simp [Message.is_reserved, hres, hnow]
    have hmtot : ∀ x : Message, (releaseByMid qn m.mid).matches now x =
        some (x.is_reserved now && (x.mid == m.mid)) :=
      fun x => matches_confirm_return _ now x (Or.inr rfl) m.mid rfl
    have hpm : (m.is_reserved now && (m.mid == m.mid)) = true := by
      simp [hrsv]
    cases hfind : msgs.find? (fun x => x.is_reserved now && (x.mid == m.mid)) with
    | none =>
      have := List.find?_eq_none.mp hfind m hm
      rw [hpm] at this
      simp at this
    | some res =>
      have hres_eq : res = m := by
        have hres1 := List.find?_some hfind
        have hres2 := List.mem_of_find?_eq_some hfind
        simp only [Bool.and_eq_true, beq_iff_eq] at hres1
        exact huniq res hres2 hres1.2
      subst hres_eq
      obtain ⟨l1, l2, heq, hall1⟩ := find?_decomp _ _ _ hfind
      subst heq
      have hscanR : positionMatch (releaseByMid qn res.mid) now (l1 ++ res :: l2) =
          some (some l1.length) := by
        refine positionMatch_first_true _ _ l1 res l2 ?_ ?_
        · intro y hy
          rw [hmtot y, hall1 y hy]
        · rw [hmtot res, hpm]
      have hgetR : (l1 ++ res :: l2).get? l1.length = some res := get?_append_cons _ _ _
      have himplR : Memory.get_message_impl (releaseByMid qn res.mid)
          (Queue.mk (l1 ++ res :: l2) ms) l1.length =
          some (res.remove_reservation,
            Queue.mk (l1 ++ res.remove_reservation :: l2) ms) := by
        simp only [Memory.get_message_impl, releaseByMid, hgetR]
        simp [set_append_length]
      refine ⟨res.remove_reservation,
        Memory.mk (updateQueue mem.queues qn (Queue.mk (l1 ++ res.remove_reservation :: l2) ms)),
        ?_, rfl, rfl, ?_⟩
      · simp only [releaseByMid] at hscanR himplR
        simp only [Memory.get_message, releaseByMid, hq, hscanR, himplR]
      · -- the released message is immediately selectable
        have hq2 : lookupQueue
            (updateQueue mem.queues qn (Queue.mk (l1 ++ res.remove_reservation :: l2) ms)) qn =
            some (Queue.mk (l1 ++ res.remove_reservation :: l2) ms) :=
          lookupQueue_update_self _ hq
        have hall2 : ∀ y ∈ l1, gmo.matches now y = some false := by
          intro y hy
          by_cases hym : y.mid = res.mid
          · exfalso
            have hym' : y = res := huniq y (by simp [hy]) hym
            have := hall1 y hy
            rw [hym'] at this
            rw [hpm] at this
            simp at this
          · exact matches_false_of_mid_ne gmo now y hga res.mid hgmid hym
        have hm2true : gmo.matches now res.remove_reservation = some true := by
          have hexp2 : (res.remove_reservation).is_expired now = false := by
            simpa [Message.remove_reservation, Message.is_expired] using hnexp
          rcases hga with h | h | h <;>
            simp [GetMessageOptions.matches, h, hgmid, hgcid, hgcur,
              Message.remove_reservation, Message.is_reserved,
              Message.is_expired] at hexp2 ⊢ <;>
            simp [hexp2]
        have hscan2 : positionMatch gmo now (l1 ++ res.remove_reservation :: l2) =
            some (some l1.length) :=
          positionMatch_first_true _ _ l1 _ l2 hall2 hm2true
        obtain ⟨msg3, queue3, himpl3, hfields3⟩ :=
          get_message_impl_fields gmo (Queue.mk (l1 ++ res.remove_reservation :: l2) ms)
            l1.length res.remove_reservation hga (get?_append_cons _ _ _)
        refine ⟨msg3, Memory.mk (updateQueue
          (updateQueue mem.queues qn (Queue.mk (l1 ++ res.remove_reservation :: l2) ms))
          qn queue3), ?_, ?_⟩
        · simp only [Memory.get_message, hgqn, hq2, hscan2, himpl3]
        · rw [hfields3.1]
          rfl

/-- The expiry sweep does not touch serial counters. -/
theorem serialOf_purge (mem : Memory) (now : Instant) (qn : QueueName) :
    serialOf (mem.purge_expired_messages now).1 qn = serialOf mem qn := by
  unfold serialOf
  rw [lookupQueue_purge]
  cases lookupQueue mem.queues qn <;> simp

/-- After the sweep, no message left in any queue is expired. -/
theorem purged_messages_not_expired (mem : Memory) (now : Instant) (qn : QueueName) :
    ∀ q, lookupQueue ((mem.purge_expired_messages now).1).queues qn = some q →
      ∀ m ∈ q.messages, m.is_expired now = false := by
  intro q hq m hm
  rw [lookupQueue_purge] at hq
  obtain ⟨q0, _, hfq⟩ := Option.map_eq_some'.mp hq
  rw [← hfq] at hm
  have := (List.mem_filter.mp hm).2
  simpa using this

/-- C7: create_message always succeeds; it first drops every expired message
from every queue, lazily creates the target queue when absent, and inserts a
message carrying the freshly drawn id, the queue's next position, an empty
lease, and the request's expiry (Permanent when absent). -/
theorem C7_create_always_succeeds
    (mem : Memory) (qn : QueueName) (req : CreateMessageRequest) (mid : Uuid)
    (now : Instant) :
    ∃ msg mem',
      mem.create_message qn req mid now = Except.ok (msg, mem') ∧
      msg.mid = mid ∧
      msg.reservation = Reservation.Unreserved ∧
      msg.content = req.content ∧
      msg.cid = req.cid ∧
      msg.expiry = Expiry.fromOpt req.expiry ∧
      msg.cursor = serialOf mem qn + 1 ∧
      (∀ q0, lookupQueue mem.queues qn = some q0 → msg.cursor = q0.max_serial + 1) ∧
      (lookupQueue mem.queues qn = none →
        lookupQueue mem'.queues qn = some (Queue.mk [msg] 1)) ∧
      (∃ q', lookupQueue mem'.queues qn = some q' ∧
        q'.messages.getLast? = some msg ∧
        q'.max_serial = msg.cursor ∧
        ∀ m ∈ q'.messages.dropLast, m.is_expired now = false) ∧
      (∀ qn', qn' ≠ qn → ∀ q', lookupQueue mem'.queues qn' = some q' →
        ∀ m ∈ q'.messages, m.is_expired now = false) := by
  obtain ⟨mem', hc, hq', hother⟩ := create_message_spec mem qn req mid now
  rw [serialOf_purge] at hc hq'
  refine ⟨(Message.new mid req.cid req.content req.expiry).set_cursor (serialOf mem qn + 1),
    mem', hc, ?_, ?_, ?_, ?_, ?_, ?_, ?_, ?_, ?_, ?_⟩
  · simp [Message.new, Message.set_cursor]
  · simp [Message.new, Message.set_cursor]
  · simp [Message.new, Message.set_cursor]
  · simp [Message.new, Message.set_cursor]
  · simp [Message.new, Message.set_cursor]
  · simp [Message.new, Message.set_cursor]
  · intro q0 hq0
    simp [Message.new, Message.set_cursor, serialOf, hq0]
  · intro habs
    rw [hq']
    have hpl : lookupQueue ((mem.purge_expired_messages now).1).queues qn = none := by
      rw [lookupQueue_purge, habs]
      rfl
    simp [messagesOf, hpl, serialOf, habs]
  · refine ⟨_, hq', ?_, rfl, ?_⟩
    · simp
    · intro m hm
      have hdl : (messagesOf (mem.purge_expired_messages now).1 qn ++
          [(Message.new mid req.cid req.content req.expiry).set_cursor
            (serialOf mem qn + 1)]).dropLast =
          messagesOf (mem.purge_expired_messages now).1 qn := by
        simp
      rw [hdl] at hm
      unfold messagesOf at hm
      cases hpl : lookupQueue ((mem.purge_expired_messages now).1).queues qn with
      | none => rw [hpl] at hm; simp at hm
      | some pq =>
        rw [hpl] at hm
        exact purged_messages_not_expired mem now qn pq hpl m hm
  · intro qn' hne q' hq'' m hm
    rw [hother qn' hne] at hq''
    exact purged_messages_not_expired mem now qn' q' hq'' m hm

/-- Iterated `create_message`: folds N successive creations on one queue,
collecting the returned messages (harness for the monotonicity property). -/
def createSeq (qn : QueueName) :
    Memory → List (CreateMessageRequest × Uuid × Instant) →
    Except CreateMessageError (List Message × Memory)
  | mem, [] => Except.ok ([], mem)
  | mem, (req, mid, now) :: rest =>
    Except.bind (mem.create_message qn req mid now) fun p =>
    Except.bind (createSeq qn p.2 rest) fun q =>
    Except.ok (p.1 :: q.1, q.2)

/-- Successive creations on one queue always succeed and stamp consecutive
positions starting just past the queue's current serial. -/
theorem createSeq_spec (qn : QueueName) :
    ∀ (reqs : List (CreateMessageRequest × Uuid × Instant)) (mem : Memory),
    ∃ msgs mem', createSeq qn mem reqs = Except.ok (msgs, mem') ∧
      msgs.map (fun m => m.cursor) = List.range' (serialOf mem qn + 1) reqs.length ∧
      serialOf mem' qn = serialOf mem qn + reqs.length := by
  intro reqs
  induction reqs with
  | nil =>
    intro mem
    exact ⟨[], mem, rfl, by simp [List.range'], by simp⟩
  | cons rmn rest ih =>
    intro mem
    obtain ⟨req, mid, now⟩ := rmn
    obtain ⟨mem1, hc, hq1, _⟩ := create_message_spec mem qn req mid now
    have hserial1 : serialOf mem1 qn = serialOf mem qn + 1 := by
      rw [← serialOf_purge mem now qn]
      simp [serialOf, hq1]
    obtain ⟨msgs, mem2, hrest, hcursors, hserial2⟩ := ih mem1
    refine ⟨(Message.new mid req.cid req.content req.expiry).set_cursor
        (serialOf (mem.purge_expired_messages now).1 qn + 1) :: msgs, mem2, ?_, ?_, ?_⟩
    · simp [createSeq, hc, Except.bind, hrest]
    · simp only [List.map_cons, hcursors, hserial1, List.length_cons]
      rw [List.range'_succ]
      rw [serialOf_purge]
      simp [Message.set_cursor]
    · rw [hserial2, hserial1]
      simp only [List.length_cons]
      omega

/-- C8: starting from any store, N successive creations on a queue are
stamped with the strictly increasing positions serial+1 .. serial+N (hence
exactly 1..N on a fresh queue); creations on a different queue name leave
this queue's counter untouched; and the counter stays at or above every
stored position across a creation. -/
theorem C8_position_monotonicity (mem : Memory) (qn : QueueName)
    (reqs : List (CreateMessageRequest × Uuid × Instant)) :
    (∃ msgs mem', createSeq qn mem reqs = Except.ok (msgs, mem') ∧
      msgs.map (fun m => m.cursor) = List.range' (serialOf mem qn + 1) reqs.length ∧
      (msgs.map (fun m => m.cursor)).Pairwise (· < ·) ∧
      (lookupQueue mem.queues qn = none →
        msgs.map (fun m => m.cursor) = List.range' 1 reqs.length) ∧
      serialOf mem' qn = serialOf mem qn + reqs.length) ∧
    (∀ qn' req mid now, qn' ≠ qn →
      ∀ msg mem2, mem.create_message qn' req mid now = Except.ok (msg, mem2) →
        serialOf mem2 qn = serialOf mem qn) ∧
    (∀ q, lookupQueue mem.queues qn = some q →
      (∀ m ∈ q.messages, m.cursor ≤ q.max_serial) →
      ∀ req mid now msg mem2, mem.create_message qn req mid now = Except.ok (msg, mem2) →
        ∃ q2, lookupQueue mem2.queues qn = some q2 ∧
          msg.cursor = q2.max_serial ∧
          ∀ m ∈ q2.messages, m.cursor ≤ q2.max_serial) := by
  refine ⟨?_, ?_, ?_⟩
  · obtain ⟨msgs, mem', h1, h2, h3⟩ := createSeq_spec qn reqs mem
    refine ⟨msgs, mem', h1, h2, ?_, ?_, h3⟩
    · rw [h2]
      exact List.pairwise_lt_range' _ _
    · intro habs
      rw [h2]
      simp [serialOf, habs]
  · intro qn' req mid now hne msg mem2 hc
    obtain ⟨memx, hcx, _, hotherx⟩ := create_message_spec mem qn' req mid now
    rw [hc] at hcx
    injection hcx with hcx
    injection hcx with hmsgx hmemx
    subst hmemx
    unfold serialOf
    rw [hotherx qn (Ne.symm hne), lookupQueue_purge]
    cases lookupQueue mem.queues qn <;> simp
  · intro q hq hinv req mid now msg mem2 hc
    obtain ⟨memx, hcx, hqx, _⟩ := create_message_spec mem qn req mid now
    rw [hc] at hcx
    injection hcx with hcx
    injection hcx with hmsgx hmemx
    subst hmemx
    subst hmsgx
    rw [serialOf_purge] at hqx
    refine ⟨_, hqx, ?_, ?_⟩
    · simp [Message.set_cursor, serialOf_purge]
    · intro m hm
      simp only [List.mem_append, List.mem_singleton] at hm
      rcases hm with hm | hm
      · have hmq : m ∈ q.messages := by
          unfold messagesOf at hm
          rw [lookupQueue_purge, hq] at hm
          exact List.mem_of_mem_filter hm
        have h1 := hinv m hmq
        have hsq : serialOf mem qn = q.max_serial := by simp [serialOf, hq]
        show m.cursor ≤ serialOf mem qn + 1
        omega
      · subst hm
        simp [Message.set_cursor]

/-! ## Remaining witnesses -/

/-- Witness for C2: round trip at a concrete store and fresh id 500. -/
theorem C2_create_take_roundtrip_witness :
    (∀ p ∈ wmem.queues, ∀ m ∈ p.2.messages, m.mid ≠ 500) ∧
    (∃ msg mem1 msg2 mem2,
      wmem.create_message wqn { content := "hello", cid := none, expiry := none } 500 0
        = Except.ok (msg, mem1) ∧
      msg.content = "hello" ∧ msg.mid = 500 ∧
      mem1.get_message (takeByMid wqn 500) 1 = some (Except.ok (msg2, mem2)) ∧
      msg2.content = "hello" ∧ msg2.mid = 500 ∧
      (∀ q, lookupQueue mem2.queues wqn = some q → ∀ m ∈ q.messages, m.mid ≠ 500) ∧
      mem2.get_message (takeByMid wqn 500) 2 =
        some (Except.error (GetMessageError.NoMessage wqn.val))) :=
  ⟨by decide, C2_create_take_roundtrip wmem wqn "hello" none 500 0 1 2 (by decide)⟩

/-- Sample browse request targeting the leased sample message's id. -/
def wgmoBrowse1 : GetMessageOptions :=
  { queue_name := wqn, action := GetMessageAction.Browse, mid := some 11, cid := none,
    reservation := none, expiry := none, cursor := none }

/-- Witness for C5: the sample store's position-1 message is leased until 10;
all hypotheses hold and so does the exclusivity/lapse/release conclusion. -/
theorem C5_lease_exclusivity_witness :
    lookupQueue wmem.queues wqn = some (Queue.mk [wm1, wm2] 2) ∧
    wm1 ∈ [wm1, wm2] ∧
    wm1.reservation = Reservation.Until 10 ∧
    (∀ m' ∈ [wm1, wm2], m'.mid = wm1.mid → m' = wm1) ∧
    ((∀ now, now < 10 →
      wmem.get_message wgmoBrowse1 now =
        some (Except.error (GetMessageError.NoMessage wqn.val))) ∧
    (∀ now, 10 ≤ now → wm1.is_expired now = false →
      ∃ msg2 mem2, wmem.get_message wgmoBrowse1 now = some (Except.ok (msg2, mem2)) ∧
        msg2.mid = wm1.mid) ∧
    (∀ now, now < 10 → wm1.is_expired now = false →
      ∃ m2 mem2,
        wmem.get_message (releaseByMid wqn wm1.mid) now = some (Except.ok (m2, mem2)) ∧
        m2.reservation = Reservation.Unreserved ∧ m2.mid = wm1.mid ∧
        ∃ msg3 mem3, mem2.get_message wgmoBrowse1 now = some (Except.ok (msg3, mem3)) ∧
          msg3.mid = wm1.mid)) :=
  ⟨by decide, by decide, rfl, by decide,
    C5_lease_exclusivity wmem wqn [wm1, wm2] 2 wm1 10 (by decide) (by decide) rfl
      (by decide) wgmoBrowse1 rfl (Or.inl rfl) rfl rfl rfl⟩

/-- Sample browse request targeting the expired sample message's id. -/
def wgmoBrowse3 : GetMessageOptions :=
  { queue_name := wqn, action := GetMessageAction.Browse, mid := some 33, cid := none,
    reservation := none, expiry := none, cursor := none }

/-- Witness for C6: the sample store's expired message (expiry instant 20) is
unselectable at every instant from 20 on. -/
theorem C6_expired_message_unselectable_witness :
    lookupQueue wmemC10.queues wqn = some (Queue.mk [wm1, wmExpired] 3) ∧
    wmExpired.expiry = Expiry.Expire 20 ∧
    (∀ m' ∈ (Queue.mk [wm1, wmExpired] 3).messages, m'.mid = wmExpired.mid →
      m' = wmExpired) ∧
    (∀ now, 20 ≤ now →
      wmemC10.get_message wgmoBrowse3 now =
        some (Except.error (GetMessageError.NoMessage wqn.val))) :=
  ⟨by decide, rfl, by decide,
    C6_expired_message_unselectable wmemC10 wqn (Queue.mk [wm1, wmExpired] 3) wmExpired 20
      (by decide) rfl (by decide) wgmoBrowse3 rfl (Or.inl rfl) rfl⟩

/-- Sample target queue name absent from the sample stores. -/
def wqn2 : QueueName := { val := "q2" }

/-- Sample creation request carrying a correlation id and an expiry instant. -/
def wreq : CreateMessageRequest := { content := "c", cid := some 7, expiry := some 30 }

/-- Witness for C7: creation at instant 25 on the absent queue q2 of a store
holding an expired message (so the sweep is visible). -/
theorem C7_create_always_succeeds_witness :
    ∃ msg mem',
      wmemC10.create_message wqn2 wreq 77 25 = Except.ok (msg, mem') ∧
      msg.mid = 77 ∧
      msg.reservation = Reservation.Unreserved ∧
      msg.content = wreq.content ∧
      msg.cid = wreq.cid ∧
      msg.expiry = Expiry.fromOpt wreq.expiry ∧
      msg.cursor = serialOf wmemC10 wqn2 + 1 ∧
      (∀ q0, lookupQueue wmemC10.queues wqn2 = some q0 → msg.cursor = q0.max_serial + 1) ∧
      (lookupQueue wmemC10.queues wqn2 = none →
        lookupQueue mem'.queues wqn2 = some (Queue.mk [msg] 1)) ∧
      (∃ q', lookupQueue mem'.queues wqn2 = some q' ∧
        q'.messages.getLast? = some msg ∧
        q'.max_serial = msg.cursor ∧
        ∀ m ∈ q'.messages.dropLast, m.is_expired 25 = false) ∧
      (∀ qn', qn' ≠ wqn2 → ∀ q', lookupQueue mem'.queues qn' = some q' →
        ∀ m ∈ q'.messages, m.is_expired 25 = false) :=
  C7_create_always_succeeds wmemC10 wqn2 wreq 77 25

/-- Sample two-creation sequence for the monotonicity witness. -/
def wreqs : List (CreateMessageRequest × Uuid × Instant) :=
  [({ content := "a", cid := none, expiry := none }, 101, 0),
   ({ content := "b", cid := none, expiry := none }, 102, 1)]

/-- Witness for C8: two successive creations on the absent queue q2. -/
theorem C8_position_monotonicity_witness :
    (∃ msgs mem', createSeq wqn2 wmem wreqs = Except.ok (msgs, mem') ∧
      msgs.map (fun m => m.cursor) = List.range' (serialOf wmem wqn2 + 1) wreqs.length ∧
      (msgs.map (fun m => m.cursor)).Pairwise (· < ·) ∧
      (lookupQueue wmem.queues wqn2 = none →
        msgs.map (fun m => m.cursor) = List.range' 1 wreqs.length) ∧
      serialOf mem' wqn2 = serialOf wmem wqn2 + wreqs.length) ∧
    (∀ qn' req mid now, qn' ≠ wqn2 →
      ∀ msg mem2, wmem.create_message qn' req mid now = Except.ok (msg, mem2) →
        serialOf mem2 wqn2 = serialOf wmem wqn2) ∧
    (∀ q, lookupQueue wmem.queues wqn2 = some q →
      (∀ m ∈ q.messages, m.cursor ≤ q.max_serial) →
      ∀ req mid now msg mem2, wmem.create_message wqn2 req mid now = Except.ok (msg, mem2) →
        ∃ q2, lookupQueue mem2.queues wqn2 = some q2 ∧
          msg.cursor = q2.max_serial ∧
          ∀ m ∈ q2.messages, m.cursor ≤ q2.max_serial) :=
  C8_position_monotonicity wmem wqn2 wreqs

end MsgQ
